import Mathlib

/-!
Verification development for the wallet core of MWCPlusPlus.

The visible source is the facade `src/Wallet/WalletManagerImpl.cpp`.  The
facade's own control flow (session resolution order, the balance-summary
loop, wallet creation) is embedded directly from that file.  Collaborators
that the facade calls but whose bodies are not part of the visible source
(SeedEncrypter, SessionManager, SlateBuilder, the wallet database, the
mnemonic codec) are modelled from the specification; each such definition
carries a doc comment starting with `Modelled from the spec:`.

Machine integers (uint64_t amounts, 256-bit seeds) are modelled as `Nat`;
no amount arithmetic in the visible code can overflow in any claim we
state, and seeds are opaque entropy.  Exceptions are modelled with
`Except WalletError`.
-/

namespace MWCWallet

/-! ## Basic data model -/

/-- Status tag of one owned output, per the data model: UNSPENT, LOCKED,
IMMATURE, or SPENT (spent / awaiting removal). -/
inductive EOutputStatus : Type
  | UNSPENT : EOutputStatus
  | IMMATURE : EOutputStatus
  | LOCKED : EOutputStatus
  | SPENT : EOutputStatus
deriving DecidableEq, Repr

/-- One transaction output known to belong to this wallet: amount, status
tag, whether it is coinbase-type, and the block height it appeared at
(used by the spec's maturity/confirmation rules). -/
structure OutputData : Type where
  amount : Nat
  status : EOutputStatus
  isCoinbase : Bool
  blockHeight : Nat
deriving DecidableEq, Repr

/-- A wallet coin wraps its output data together with the identifying
key-derivation path. -/
structure WalletCoin : Type where
  outputData : OutputData
  keyPath : Nat
deriving DecidableEq, Repr

/-- The derived balance view returned by GetWalletSummary; mirrors the
constructor call at WalletManagerImpl.cpp line 72. -/
structure WalletSummary : Type where
  lastConfirmedHeight : Nat
  minimumConfirmations : Nat
  awaitingConfirmation : Nat
  immature : Nat
  locked : Nat
  spendable : Nat
deriving DecidableEq, Repr

/-- Error taxonomy of the core (spec section 7). -/
inductive WalletError : Type
  | AuthenticationError : WalletError
  | InvalidSessionError : WalletError
  | InsufficientFundsError : WalletError
  | InvalidSlateError : WalletError
deriving DecidableEq, Repr

/-! ## SeedVault (SeedEncrypter) -/

/-- Modelled from the spec: the `EncryptedSeed` produced by
`SeedEncrypter::EncryptWalletSeed` (Keychain/SeedEncrypter.h, not under the
visible source).  Authenticated encryption is modelled symbolically, in the
ideal-cipher style: the ciphertext term records the encrypted seed payload
and the passphrase-derived key/authentication material, and is opaque to
every component except decryption. -/
structure EncryptedSeed : Type where
  sealedSeed : Nat
  sealedKey : String
deriving DecidableEq, Repr

/-- Modelled from the spec: `EncryptWalletSeed(seed, passphrase)` derives a
key from the passphrase and encrypts the seed with authenticated
encryption (spec 4.1); symbolically the ciphertext is the pair of sealed
seed and sealed key material. -/
def SeedEncrypter.EncryptWalletSeed (walletSeed : Nat) (password : String) : EncryptedSeed :=
  { sealedSeed := walletSeed, sealedKey := password }

/-- Modelled from the spec: `DecryptWalletSeed(encryptedSeed, passphrase)`
recovers the exact seed under the same passphrase and fails with
`AuthenticationError` on an authentication-tag mismatch, i.e. any other
passphrase (spec 4.1). -/
def SeedEncrypter.DecryptWalletSeed (enc : EncryptedSeed) (password : String) :
    Except WalletError Nat :=
  if enc.sealedKey = password then Except.ok enc.sealedSeed
  else Except.error WalletError.AuthenticationError

/-! ## Collaterals: RNG, mnemonic codec, node client, wallet storage -/

/-- Modelled from the spec: `RandomNumberGenerator::GenerateRandom32`
draws 256 bits of fresh entropy.  The randomness source is modelled as an
explicit stream counter carried in the manager state; the draw is the
current stream value. -/
def RandomNumberGenerator.GenerateRandom32 (stream : Nat) : Nat :=
  stream

/-- Modelled from the spec: the human-readable words produced by
`Mnemonic::CreateMnemonic(seedBytes, passphrase?)` (spec section 6), as a
symbolic codec term determined by its inputs. -/
structure MnemonicWords : Type where
  seedBytes : Nat
  codecPass : Option String
deriving DecidableEq, Repr

/-- Modelled from the spec: `CreateMnemonic(seedBytes, passphrase?) -> words`. -/
def Mnemonic.CreateMnemonic (seedBytes : Nat) (passOpt : Option String) : MnemonicWords :=
  { seedBytes := seedBytes, codecPass := passOpt }

/-- The node client interface the core consumes: `GetChainHeight() -> uint64`
(spec section 6). -/
structure INodeClient : Type where
  chainHeight : Nat
deriving DecidableEq, Repr

/-- One persisted wallet record of the storage collaborator: the username
key, the encrypted seed (the only durable form of the seed), and the owned
output set. -/
structure WalletRecord : Type where
  username : String
  encryptedSeed : EncryptedSeed
  coins : List WalletCoin
deriving DecidableEq, Repr

/-- In-memory state of the wallet manager process: the storage-backed
wallet records, the session registry's token map (token id to bound
username and decrypted seed), the next fresh token id, and the entropy
stream counter. -/
structure WalletManagerState : Type where
  walletDB : List WalletRecord
  sessions : List (Nat × (String × Nat))
  nextTokenId : Nat
  entropy : Nat
deriving DecidableEq, Repr

/-- Modelled from the spec: `WalletStorage::CreateWallet(username,
EncryptedSeed) -> bool` fails exactly on a username collision (spec
section 6), leaving storage unchanged; otherwise it inserts a record with
an empty output set. -/
def WalletDB.CreateWallet (db : List WalletRecord) (username : String)
    (enc : EncryptedSeed) : Bool × List WalletRecord :=
  if db.any (fun w => w.username == username) then (false, db)
  else (true, { username := username, encryptedSeed := enc, coins := [] } :: db)

/-! ## SessionRegistry (SessionManager) -/

/-- Modelled from the spec: `SessionManager::Login(username, seed)` — the
overload used right after wallet creation — generates a fresh token,
stores the (token, username, seed) binding in process-local memory and
returns the token (spec 4.2). -/
def SessionManager.Login (st : WalletManagerState) (username : String) (seed : Nat) :
    Nat × WalletManagerState :=
  (st.nextTokenId,
   { st with sessions := (st.nextTokenId, (username, seed)) :: st.sessions,
             nextTokenId := st.nextTokenId + 1 })

/-- Modelled from the spec: `SessionManager::Logout(token)` removes the
binding; idempotent on already-invalid tokens (spec 4.2). -/
def SessionManager.Logout (st : WalletManagerState) (token : Nat) : WalletManagerState :=
  { st with sessions := st.sessions.filter (fun p => p.1 != token) }

/-- Modelled from the spec: `SessionManager::GetSeed(token)` fails with
`InvalidSessionError` if the token is unknown or logged out (spec 4.2). -/
def SessionManager.GetSeed (st : WalletManagerState) (token : Nat) :
    Except WalletError Nat :=
  match st.sessions.lookup token with
  | some binding => Except.ok binding.2
  | none => Except.error WalletError.InvalidSessionError

/-- Modelled from the spec: `SessionManager::GetWallet(token)` resolves the
token to the session's wallet handle, failing with `InvalidSessionError`
if the token is unknown or logged out (spec 4.2). -/
def SessionManager.GetWallet (st : WalletManagerState) (token : Nat) :
    Except WalletError WalletRecord :=
  match st.sessions.lookup token with
  | some binding =>
    match st.walletDB.find? (fun w => w.username == binding.1) with
    | some w => Except.ok w
    | none => Except.error WalletError.InvalidSessionError
  | none => Except.error WalletError.InvalidSessionError

/-- Modelled from the spec: `SessionManager::Login(username, password)`
loads the user's EncryptedSeed from storage, decrypts it via the seed
vault, and on success issues a fresh token; any failure is a login
failure (spec 4.2). -/
def SessionManager.LoginPassword (st : WalletManagerState) (username : String)
    (password : String) : Option Nat × WalletManagerState :=
  match st.walletDB.find? (fun w => w.username == username) with
  | none => (none, st)
  | some w =>
    match SeedEncrypter.DecryptWalletSeed w.encryptedSeed password with
    | Except.error _ => (none, st)
    | Except.ok seed =>
      let r := SessionManager.Login st username seed
      (some r.1, r.2)

/-! ## OutputLedger: the balance-summary loop -/

/-- Modelled from the spec: `Wallet::GetAllAvailableCoins(seed)` scans the
wallet's persisted output set, using the seed only to confirm ownership
(spec 4.3); in the model every stored coin of the record is owned. -/
def Wallet.GetAllAvailableCoins (wallet : WalletRecord) (_seed : Nat) : List WalletCoin :=
  wallet.coins

/-- Loop body of WalletManagerImpl.cpp lines 56-70: the accumulator is
(awaitingConfirmation, immature, locked, spendable); a LOCKED coin adds to
locked, an UNSPENT coin adds to spendable (the confirmation count is never
computed — the source carries a TODO there), any other status leaves the
accumulator unchanged. -/
def summarizeStep (acc : Nat × Nat × Nat × Nat) (coin : WalletCoin) :
    Nat × Nat × Nat × Nat :=
  let awaitingConfirmation := acc.1
  let immature := acc.2.1
  let locked := acc.2.2.1
  let spendable := acc.2.2.2
  let outputData := coin.outputData
  let amount := outputData.amount
  let status := outputData.status
  if status = EOutputStatus.LOCKED then
    (awaitingConfirmation, immature, locked + amount, spendable)
  else if status = EOutputStatus.UNSPENT then
    (awaitingConfirmation, immature, locked, spendable + amount)
  else
    (awaitingConfirmation, immature, locked, spendable)

/-- The full coin loop of WalletManagerImpl.cpp lines 49-70, starting from
all four buckets at zero. -/
def summarizeCoins (coins : List WalletCoin) : Nat × Nat × Nat × Nat :=
  coins.foldl summarizeStep (0, 0, 0, 0)

/-! ## SlateProtocol data -/

/-- Phase marker of the negotiation record (spec 4.4):
CREATED, RECEIVED, FINALIZED. -/
inductive ESlatePhase : Type
  | CREATED : ESlatePhase
  | RECEIVED : ESlatePhase
  | FINALIZED : ESlatePhase
deriving DecidableEq, Repr

/-- Modelled from the spec: a homomorphic amount commitment, kept abstract
as its value component and blinding component; commitments add
componentwise, which is the homomorphic-commitment property the spec
assumes of the crypto primitive. -/
structure Commitment : Type where
  value : Nat
  blind : Int
deriving DecidableEq, Repr

/-- One participant's public contribution to a slate: public blinding
excess, public nonce, and its signature share over the transaction's
public commitment sum. -/
structure ParticipantData : Type where
  publicBlindExcess : Int
  publicNonce : Int
  sigShare : Int
deriving DecidableEq, Repr

/-- Modelled from the spec: the mutable negotiation record exchanged
between sender and receiver — transaction skeleton (inputs, outputs so
far, amount, fee), kernel offset, each participant's contribution, an
optional message and the phase marker (spec section 3). -/
structure Slate : Type where
  slateId : Nat
  slatePhase : ESlatePhase
  amount : Nat
  fee : Nat
  inputs : List Commitment
  outputs : List Commitment
  kernelOffset : Int
  participants : List ParticipantData
  message : Option String
deriving DecidableEq, Repr

/-- The transaction kernel: fee, aggregate public excess, and the
aggregated kernel signature. -/
structure TransactionKernel : Type where
  fee : Nat
  excess : Int
  excessSig : Int
deriving DecidableEq, Repr

/-- The final broadcastable artifact produced by Finalize. -/
structure Transaction : Type where
  offset : Int
  inputs : List Commitment
  outputs : List Commitment
  kernel : TransactionKernel
deriving DecidableEq, Repr

/-- Sum of the value components of a list of commitments. -/
def commitValueSum (l : List Commitment) : Nat :=
  (l.map (fun c => c.value)).sum

/-- Sum of the blinding components of a list of commitments. -/
def commitBlindSum (l : List Commitment) : Int :=
  (l.map (fun c => c.blind)).sum

/-- Modelled from the spec: the commitment balance check — the commitment
sum of the inputs equals the commitment sum of the outputs plus the fee
commitment and the kernel excess (spec 4.4, section 3 invariant set). -/
def txBalanced (tx : Transaction) : Bool :=
  (commitValueSum tx.inputs == commitValueSum tx.outputs + tx.kernel.fee) &&
  (commitBlindSum tx.inputs == commitBlindSum tx.outputs + tx.offset + tx.kernel.excess)

/-! ## SlateProtocol operations (SlateBuilder) -/

/-- Coin selection strategy (spec 4.3): at minimum ALL, plus a
fewest-leftover heuristic. -/
inductive ESelectionStrategy : Type
  | ALL : ESelectionStrategy
  | SMALLEST : ESelectionStrategy
deriving DecidableEq, Repr

/-- Modelled from the spec: the fee computed from a base rate and the
estimated input/output/kernel weight (spec 4.4); the exact weight formula
is pluggable policy, modelled as one weight unit per input, per output and
for the kernel. -/
def calculateFee (feeBase : Nat) (numInputs : Nat) (numOutputs : Nat) : Nat :=
  feeBase * (numInputs + numOutputs + 1)

/-- Total amount carried by a list of coins. -/
def coinTotal (coins : List WalletCoin) : Nat :=
  (coins.map (fun c => c.outputData.amount)).sum

/-- Whether a candidate selection covers amount + fee, where the fee is
computed for that selection (one receiver output and one change output). -/
def coversTarget (amount : Nat) (feeBase : Nat) (sel : List WalletCoin) : Bool :=
  amount + calculateFee feeBase sel.length 2 ≤ coinTotal sel

/-- Fold step of the fewest-leftover heuristic: keep the covering
candidate of smaller total. -/
def pickSmaller : Option (List WalletCoin) → List WalletCoin → Option (List WalletCoin)
  | none, s => some s
  | some best, s => if coinTotal s < coinTotal best then some s else some best

/-- Modelled from the spec: coin selection under a strategy — ALL uses
every spendable coin; SMALLEST picks a covering subset of least total.
Returns none exactly when the strategy finds no covering selection
(spec 4.3). -/
def selectCoins (strategy : ESelectionStrategy) (spendable : List WalletCoin)
    (amount : Nat) (feeBase : Nat) : Option (List WalletCoin) :=
  match strategy with
  | ESelectionStrategy.ALL =>
    if coversTarget amount feeBase spendable then some spendable else none
  | ESelectionStrategy.SMALLEST =>
    (spendable.sublists.filter (fun s => coversTarget amount feeBase s)).foldl
      pickSmaller none

/-- Modelled from the spec: the blinding factor the wallet derives from
its seed for a key path, opaque to other parties. -/
def blindingFactor (seed : Nat) (path : Nat) : Int :=
  Int.ofNat seed * 1000003 + Int.ofNat path

/-- The commitment of an owned coin, committing to its amount under the
wallet's derived blinding factor. -/
def coinCommitment (seed : Nat) (c : WalletCoin) : Commitment :=
  { value := c.outputData.amount, blind := blindingFactor seed c.keyPath }

/-- Mark every selected coin LOCKED in this wallet record. -/
def WalletRecord.lockCoins (wallet : WalletRecord) (sel : List WalletCoin) : WalletRecord :=
  { wallet with coins := wallet.coins.map (fun c =>
      if c ∈ sel then
        { c with outputData := { c.outputData with status := EOutputStatus.LOCKED } }
      else c) }

/-- Replace one wallet record in the stored database, keyed by username. -/
def WalletDB.updateWallet (db : List WalletRecord) (wallet : WalletRecord) :
    List WalletRecord :=
  db.map (fun w => if w.username == wallet.username then wallet else w)

/-- Modelled from the spec: `SlateBuilder::BuildSendSlate(wallet, seed,
amount, feeBase, message?, strategy)` performs coin selection over the
spendable (UNSPENT) coins, computes the fee, builds the CREATED slate with
the sender's inputs, change output and participant entry, and atomically
marks the selected coins LOCKED; fails with `InsufficientFundsError`, with
no state change, if no selection covers amount + fee (spec 4.4). -/
def SlateBuilder.BuildSendSlate (wallet : WalletRecord) (masterSeed : Nat)
    (amount : Nat) (feeBase : Nat) (messageOpt : Option String)
    (strategy : ESelectionStrategy) (st : WalletManagerState) :
    Except WalletError Slate × WalletManagerState :=
  let spendable := wallet.coins.filter (fun c => c.outputData.status == EOutputStatus.UNSPENT)
  match selectCoins strategy spendable amount feeBase with
  | none => (Except.error WalletError.InsufficientFundsError, st)
  | some sel =>
    let fee := calculateFee feeBase sel.length 2
    let changeAmount := coinTotal sel - amount - fee
    let changeBlind := blindingFactor masterSeed st.entropy
    let senderExcess :=
      changeBlind - commitBlindSum (sel.map (coinCommitment masterSeed))
    let slate : Slate :=
      { slateId := st.entropy
        slatePhase := ESlatePhase.CREATED
        amount := amount
        fee := fee
        inputs := sel.map (coinCommitment masterSeed)
        outputs := [{ value := changeAmount, blind := changeBlind }]
        kernelOffset := 0
        participants := [{ publicBlindExcess := senderExcess,
                           publicNonce := Int.ofNat st.entropy,
                           sigShare := senderExcess }]
        message := messageOpt }
    (Except.ok slate,
     { st with walletDB := WalletDB.updateWallet st.walletDB (wallet.lockCoins sel),
               entropy := st.entropy + 1 })

/-- Modelled from the spec: the structural well-formedness the receiver
demands of an incoming slate before any protocol processing — a
structurally malformed slate (no inputs or no participant entry) is a
fatal fault and throws rather than being answered (spec 4.4). -/
def slateStructureOk (slate : Slate) : Bool :=
  !slate.inputs.isEmpty && !slate.participants.isEmpty

/-- Modelled from the spec: the receiver-side acceptance validation of a
CREATED slate — the commitment sum must be consistent with the stated
amount and fee (spec 4.4); failures here are acceptance failures, not
faults. -/
def slateWellFormed (slate : Slate) : Bool :=
  slate.amount + slate.fee + commitValueSum slate.outputs ≤ commitValueSum slate.inputs

/-- Modelled from the spec: `SlateBuilder::AddReceiverData(wallet, seed,
slate, message?)` throws `InvalidSlateError` on structurally malformed
input; returns false, leaving the slate unchanged, when the slate is not
in state CREATED or fails acceptance validation; otherwise appends the
receiver's output and participant entry and advances the phase to
RECEIVED (spec 4.4). -/
def SlateBuilder.AddReceiverData (wallet : WalletRecord) (masterSeed : Nat)
    (slate : Slate) (messageOpt : Option String) :
    Except WalletError (Bool × Slate) :=
  if !slateStructureOk slate then Except.error WalletError.InvalidSlateError
  else if slate.slatePhase ≠ ESlatePhase.CREATED then Except.ok (false, slate)
  else if !slateWellFormed slate then Except.ok (false, slate)
  else
    let receiverBlind := blindingFactor masterSeed (wallet.coins.length + slate.slateId)
    let receiverOutput : Commitment := { value := slate.amount, blind := receiverBlind }
    let newSlate : Slate :=
      { slate with
          slatePhase := ESlatePhase.RECEIVED
          outputs := slate.outputs ++ [receiverOutput]
          participants := slate.participants ++
            [{ publicBlindExcess := receiverBlind,
               publicNonce := receiverBlind + 1,
               sigShare := receiverBlind }]
          message := match messageOpt with
                     | some m => some m
                     | none => slate.message }
    Except.ok (true, newSlate)

/-- Assemble the complete transaction from a slate: inputs, all outputs,
fee, and the kernel aggregating the participants' excesses and signature
shares. -/
def assembleTransaction (slate : Slate) : Transaction :=
  { offset := slate.kernelOffset
    inputs := slate.inputs
    outputs := slate.outputs
    kernel := { fee := slate.fee
                excess := (slate.participants.map (fun p => p.publicBlindExcess)).sum
                excessSig := (slate.participants.map (fun p => p.sigShare)).sum } }

/-- Modelled from the spec: `SlateBuilder::Finalize(wallet, seed, slate)`
requires state RECEIVED, verifies both signature shares (signature
verification is the opaque crypto primitive, passed as a verifier),
assembles the complete transaction and verifies the aggregate commitment
balance before returning it; every failure is `InvalidSlateError`
(spec 4.4, section 7). -/
def SlateBuilder.Finalize (verify : ParticipantData → Bool) (_wallet : WalletRecord)
    (_masterSeed : Nat) (slate : Slate) : Except WalletError Transaction :=
  if slate.slatePhase ≠ ESlatePhase.RECEIVED then
    Except.error WalletError.InvalidSlateError
  else if !slate.participants.all verify then
    Except.error WalletError.InvalidSlateError
  else
    let tx := assembleTransaction slate
    if txBalanced tx then Except.ok tx
    else Except.error WalletError.InvalidSlateError

/-! ## WalletFacade (WalletManager) -/

/-- WalletManagerImpl.cpp lines 20-33: generate a fresh random seed,
encrypt it under the passphrase, try to create the wallet record; on
success produce the mnemonic words and log the new wallet in, otherwise
return none. -/
def WalletManager.InitializeNewWallet (st : WalletManagerState) (username : String)
    (password : String) : Option (MnemonicWords × Nat) × WalletManagerState :=
  let walletSeed := RandomNumberGenerator.GenerateRandom32 st.entropy
  let encryptedSeed := SeedEncrypter.EncryptWalletSeed walletSeed password
  let st1 : WalletManagerState := { st with entropy := st.entropy + 1 }
  match WalletDB.CreateWallet st1.walletDB username encryptedSeed with
  | (true, db) =>
    let walletWords := Mnemonic.CreateMnemonic walletSeed (some password)
    let r := SessionManager.Login { st1 with walletDB := db } username walletSeed
    (some (walletWords, r.1), r.2)
  | (false, _) => (none, st1)

/-- WalletManagerImpl.cpp lines 35-38: delegate to the session manager's
password login. -/
def WalletManager.Login (st : WalletManagerState) (username : String)
    (password : String) : Option Nat × WalletManagerState :=
  SessionManager.LoginPassword st username password

/-- WalletManagerImpl.cpp lines 40-43: delegate to the session manager's
logout. -/
def WalletManager.Logout (st : WalletManagerState) (token : Nat) : WalletManagerState :=
  SessionManager.Logout st token

/-- WalletManagerImpl.cpp lines 45-73: read the chain height, resolve the
session to its wallet and seed, run the coin loop and assemble the
summary. -/
def WalletManager.GetWalletSummary (node : INodeClient) (st : WalletManagerState)
    (token : Nat) (minimumConfirmations : Nat) : Except WalletError WalletSummary :=
  let lastConfirmedHeight := node.chainHeight
  match SessionManager.GetWallet st token with
  | Except.error e => Except.error e
  | Except.ok wallet =>
    match SessionManager.GetSeed st token with
    | Except.error e => Except.error e
    | Except.ok seed =>
      let coins := Wallet.GetAllAvailableCoins wallet seed
      let buckets := summarizeCoins coins
      Except.ok { lastConfirmedHeight := lastConfirmedHeight
                  minimumConfirmations := minimumConfirmations
                  awaitingConfirmation := buckets.1
                  immature := buckets.2.1
                  locked := buckets.2.2.1
                  spendable := buckets.2.2.2 }

/-- WalletManagerImpl.cpp lines 75-81: resolve seed and wallet from the
token, then delegate slate construction to the slate builder. -/
def WalletManager.Send (st : WalletManagerState) (token : Nat) (amount : Nat)
    (feeBase : Nat) (messageOpt : Option String) (strategy : ESelectionStrategy) :
    Except WalletError Slate × WalletManagerState :=
  match SessionManager.GetSeed st token with
  | Except.error e => (Except.error e, st)
  | Except.ok masterSeed =>
    match SessionManager.GetWallet st token with
    | Except.error e => (Except.error e, st)
    | Except.ok wallet =>
      SlateBuilder.BuildSendSlate wallet masterSeed amount feeBase messageOpt strategy st

/-- WalletManagerImpl.cpp lines 83-89: resolve seed and wallet from the
token, then delegate to the slate builder's AddReceiverData. -/
def WalletManager.Receive (st : WalletManagerState) (token : Nat) (slate : Slate)
    (messageOpt : Option String) :
    Except WalletError (Bool × Slate) × WalletManagerState :=
  match SessionManager.GetSeed st token with
  | Except.error e => (Except.error e, st)
  | Except.ok masterSeed =>
    match SessionManager.GetWallet st token with
    | Except.error e => (Except.error e, st)
    | Except.ok wallet =>
      (SlateBuilder.AddReceiverData wallet masterSeed slate messageOpt, st)

/-- WalletManagerImpl.cpp lines 91-97: resolve seed and wallet from the
token, then delegate to the slate builder's Finalize. -/
def WalletManager.Finalize (verify : ParticipantData → Bool) (st : WalletManagerState)
    (token : Nat) (slate : Slate) : Except WalletError Transaction :=
  match SessionManager.GetSeed st token with
  | Except.error e => Except.error e
  | Except.ok masterSeed =>
    match SessionManager.GetWallet st token with
    | Except.error e => Except.error e
    | Except.ok wallet =>
      SlateBuilder.Finalize verify wallet masterSeed slate

/-! ## Facade step relation, for temporal claims -/

/-- One externally visible facade operation applied to the manager state;
read-only operations keep the state and are covered by reflexivity of the
reachability closure. -/
inductive FacadeStep : WalletManagerState → WalletManagerState → Prop
  | init (st : WalletManagerState) (u p : String) :
      FacadeStep st (WalletManager.InitializeNewWallet st u p).2
  | login (st : WalletManagerState) (u p : String) :
      FacadeStep st (WalletManager.Login st u p).2
  | logout (st : WalletManagerState) (t : Nat) :
      FacadeStep st (WalletManager.Logout st t)
  | send (st : WalletManagerState) (t a f : Nat) (m : Option String)
      (g : ESelectionStrategy) :
      FacadeStep st (WalletManager.Send st t a f m g).2
  | receive (st : WalletManagerState) (t : Nat) (s : Slate) (m : Option String) :
      FacadeStep st (WalletManager.Receive st t s m).2

/-- Reachability by any sequence of facade operations. -/
def FacadeReachable : WalletManagerState → WalletManagerState → Prop :=
  Relation.ReflTransGen FacadeStep

/-- A token that is unbound in the session map and below the fresh-token
counter: such a token stays unbound under every facade operation. -/
def TokenRetired (st : WalletManagerState) (t : Nat) : Prop :=
  st.sessions.lookup t = none ∧ t < st.nextTokenId

/-! ## Helper lemmas -/

theorem lookup_filter_bne_self (l : List (Nat × (String × Nat))) (t : Nat) :
    (l.filter (fun p => p.1 != t)).lookup t = none := by
  induction l with
  | nil => rfl
  | cons hd tl ih =>
    by_cases h : hd.1 = t
    · have hb : (hd.1 != t) = false := by simp [bne, h]
      simp [List.filter_cons, hb, ih]
    · have hb : (hd.1 != t) = true := by simp [bne, h]
      have hb2 : (t == hd.1) = false := beq_eq_false_iff_ne.mpr (fun hh => h hh.symm)
      simp [List.filter_cons, hb, List.lookup, hb2, ih]

theorem lookup_filter_none (l : List (Nat × (String × Nat))) (t : Nat)
    (q : Nat × (String × Nat) → Bool) (h : l.lookup t = none) :
    (l.filter q).lookup t = none := by
  induction l with
  | nil => rfl
  | cons hd tl ih =>
    by_cases hk : t = hd.1
    · exfalso
      have : (t == hd.1) = true := beq_iff_eq.mpr hk
      simp [List.lookup, this] at h
    · have hb : (t == hd.1) = false := beq_eq_false_iff_ne.mpr hk
      have htl : tl.lookup t = none := by
        simpa [List.lookup, hb] using h
      by_cases hq : q hd = true
      · simp [List.filter_cons, hq, List.lookup, hb, ih htl]
      · simp only [Bool.not_eq_true] at hq
        simp [List.filter_cons, hq, ih htl]

theorem getSeed_unbound (st : WalletManagerState) (t : Nat)
    (h : st.sessions.lookup t = none) :
    SessionManager.GetSeed st t = Except.error WalletError.InvalidSessionError := by
  simp [SessionManager.GetSeed, h]

theorem getWallet_unbound (st : WalletManagerState) (t : Nat)
    (h : st.sessions.lookup t = none) :
    SessionManager.GetWallet st t = Except.error WalletError.InvalidSessionError := by
  simp [SessionManager.GetWallet, h]

theorem getWalletSummary_unbound (node : INodeClient) (st : WalletManagerState)
    (t : Nat) (minConf : Nat) (h : st.sessions.lookup t = none) :
    WalletManager.GetWalletSummary node st t minConf
      = Except.error WalletError.InvalidSessionError := by
  simp [WalletManager.GetWalletSummary, getWallet_unbound st t h]

theorem send_unbound (st : WalletManagerState) (t : Nat) (amount feeBase : Nat)
    (messageOpt : Option String) (strategy : ESelectionStrategy)
    (h : st.sessions.lookup t = none) :
    WalletManager.Send st t amount feeBase messageOpt strategy
      = (Except.error WalletError.InvalidSessionError, st) := by
  simp [WalletManager.Send, getSeed_unbound st t h]

theorem receive_unbound (st : WalletManagerState) (t : Nat) (slate : Slate)
    (messageOpt : Option String) (h : st.sessions.lookup t = none) :
    WalletManager.Receive st t slate messageOpt
      = (Except.error WalletError.InvalidSessionError, st) := by
  simp [WalletManager.Receive, getSeed_unbound st t h]

theorem finalize_unbound (verify : ParticipantData → Bool) (st : WalletManagerState)
    (t : Nat) (slate : Slate) (h : st.sessions.lookup t = none) :
    WalletManager.Finalize verify st t slate
      = Except.error WalletError.InvalidSessionError := by
  simp [WalletManager.Finalize, getSeed_unbound st t h]

theorem summarizeStep_keeps_first_two (acc : Nat × Nat × Nat × Nat) (coin : WalletCoin) :
    (summarizeStep acc coin).1 = acc.1 ∧ (summarizeStep acc coin).2.1 = acc.2.1 := by
  by_cases h1 : coin.outputData.status = EOutputStatus.LOCKED
  · simp [summarizeStep, h1]
  · by_cases h2 : coin.outputData.status = EOutputStatus.UNSPENT
    · simp [summarizeStep, h1, h2]
    · simp [summarizeStep, h1, h2]

theorem summarize_foldl_keeps_first_two (coins : List WalletCoin)
    (acc : Nat × Nat × Nat × Nat) :
    (coins.foldl summarizeStep acc).1 = acc.1 ∧
    (coins.foldl summarizeStep acc).2.1 = acc.2.1 := by
  induction coins generalizing acc with
  | nil => exact ⟨rfl, rfl⟩
  | cons hd tl ih =>
    rw [List.foldl_cons]
    exact ⟨(ih (summarizeStep acc hd)).1.trans (summarizeStep_keeps_first_two acc hd).1,
           (ih (summarizeStep acc hd)).2.trans (summarizeStep_keeps_first_two acc hd).2⟩

theorem summarizeStep_other_id (acc : Nat × Nat × Nat × Nat) (coin : WalletCoin)
    (h1 : ¬ coin.outputData.status = EOutputStatus.LOCKED)
    (h2 : ¬ coin.outputData.status = EOutputStatus.UNSPENT) :
    summarizeStep acc coin = acc := by
  simp [summarizeStep, h1, h2]

theorem summarize_foldl_filter (coins : List WalletCoin) (acc : Nat × Nat × Nat × Nat) :
    coins.foldl summarizeStep acc =
    (coins.filter (fun c => c.outputData.status == EOutputStatus.UNSPENT ||
                            c.outputData.status == EOutputStatus.LOCKED)).foldl
      summarizeStep acc := by
  induction coins generalizing acc with
  | nil => rfl
  | cons hd tl ih =>
    by_cases hu : hd.outputData.status = EOutputStatus.UNSPENT
    · have hkeep : (hd.outputData.status == EOutputStatus.UNSPENT ||
                    hd.outputData.status == EOutputStatus.LOCKED) = true := by
        simp [hu]
      rw [List.filter_cons]
      simp only [hkeep, if_true, List.foldl_cons]
      exact ih (summarizeStep acc hd)
    · by_cases hl : hd.outputData.status = EOutputStatus.LOCKED
      · have hkeep : (hd.outputData.status == EOutputStatus.UNSPENT ||
                      hd.outputData.status == EOutputStatus.LOCKED) = true := by
          simp [hl]
        rw [List.filter_cons]
        simp only [hkeep, if_true, List.foldl_cons]
        exact ih (summarizeStep acc hd)
      · have hkeep : (hd.outputData.status == EOutputStatus.UNSPENT ||
                      hd.outputData.status == EOutputStatus.LOCKED) = false := by
          simp [hu, hl]
        rw [List.filter_cons]
        simp only [hkeep, Bool.false_eq_true, if_false, List.foldl_cons,
          summarizeStep_other_id acc hd hl hu]
        exact ih acc

theorem cons_lookup_none (t k : Nat) (v : String × Nat)
    (l : List (Nat × (String × Nat))) (hne : ¬ t = k) (h : l.lookup t = none) :
    (((k, v)) :: l).lookup t = none := by
  have hb : (t == k) = false := beq_eq_false_iff_ne.mpr hne
  simp [List.lookup, hb, h]

theorem initializeNewWallet_state_cases (st : WalletManagerState) (u p : String) :
    ((WalletManager.InitializeNewWallet st u p).2.sessions = st.sessions ∧
     (WalletManager.InitializeNewWallet st u p).2.nextTokenId = st.nextTokenId) ∨
    ((WalletManager.InitializeNewWallet st u p).2.sessions
        = (st.nextTokenId, (u, st.entropy)) :: st.sessions ∧
     (WalletManager.InitializeNewWallet st u p).2.nextTokenId = st.nextTokenId + 1) := by
  unfold WalletManager.InitializeNewWallet WalletDB.CreateWallet
    RandomNumberGenerator.GenerateRandom32
  by_cases hany : (st.walletDB.any fun w => w.username == u) = true
  · left
    simp [hany]
  · right
    simp [hany, SessionManager.Login]

theorem login_state_cases (st : WalletManagerState) (u p : String) :
    ((WalletManager.Login st u p).2.sessions = st.sessions ∧
     (WalletManager.Login st u p).2.nextTokenId = st.nextTokenId) ∨
    (∃ seed, (WalletManager.Login st u p).2.sessions
        = (st.nextTokenId, (u, seed)) :: st.sessions ∧
     (WalletManager.Login st u p).2.nextTokenId = st.nextTokenId + 1) := by
  unfold WalletManager.Login SessionManager.LoginPassword
  cases hfind : st.walletDB.find? (fun w => w.username == u) with
  | none => left; simp [hfind]
  | some w =>
    cases hdec : SeedEncrypter.DecryptWalletSeed w.encryptedSeed p with
    | error e => left; simp [hfind, hdec]
    | ok seed =>
      right
      exact ⟨seed, by simp [hfind, hdec, SessionManager.Login]⟩

theorem send_state_invariant (st : WalletManagerState) (t amount feeBase : Nat)
    (messageOpt : Option String) (strategy : ESelectionStrategy) :
    (WalletManager.Send st t amount feeBase messageOpt strategy).2.sessions = st.sessions ∧
    (WalletManager.Send st t amount feeBase messageOpt strategy).2.nextTokenId
      = st.nextTokenId := by
  unfold WalletManager.Send
  cases hs : SessionManager.GetSeed st t with
  | error e => simp
  | ok seed =>
    cases hw : SessionManager.GetWallet st t with
    | error e => simp
    | ok wallet =>
      unfold SlateBuilder.BuildSendSlate
      cases hsel : selectCoins strategy
          (wallet.coins.filter (fun c => c.outputData.status == EOutputStatus.UNSPENT))
          amount feeBase with
      | none => simp [hsel]
      | some sel => simp [hsel]

theorem receive_state_id (st : WalletManagerState) (t : Nat) (slate : Slate)
    (messageOpt : Option String) :
    (WalletManager.Receive st t slate messageOpt).2 = st := by
  unfold WalletManager.Receive
  cases hs : SessionManager.GetSeed st t with
  | error e => simp
  | ok seed =>
    cases hw : SessionManager.GetWallet st t with
    | error e => simp
    | ok wallet => simp

theorem retired_of_push (st : WalletManagerState) (t : Nat)
    (sess : List (Nat × (String × Nat))) (u : String) (seed : Nat)
    (hsess : sess = (st.nextTokenId, (u, seed)) :: st.sessions)
    (hlook : st.sessions.lookup t = none) (hlt : t < st.nextTokenId) :
    sess.lookup t = none := by
  rw [hsess]
  exact cons_lookup_none t st.nextTokenId _ _ (Nat.ne_of_lt hlt) hlook

theorem step_preserves_retired {st st' : WalletManagerState} {t : Nat}
    (hstep : FacadeStep st st') (h : TokenRetired st t) : TokenRetired st' t := by
  obtain ⟨hlook, hlt⟩ := h
  cases hstep with
  | init u p =>
    rcases initializeNewWallet_state_cases st u p with ⟨hsess, hnext⟩ | ⟨hsess, hnext⟩
    · exact ⟨hsess ▸ hlook, hnext ▸ hlt⟩
    · refine ⟨retired_of_push st t _ u st.entropy hsess hlook hlt, ?_⟩
      rw [hnext]
      exact Nat.lt_succ_of_lt hlt
  | login u p =>
    rcases login_state_cases st u p with ⟨hsess, hnext⟩ | ⟨seed, hsess, hnext⟩
    · exact ⟨hsess ▸ hlook, hnext ▸ hlt⟩
    · refine ⟨retired_of_push st t _ u seed hsess hlook hlt, ?_⟩
      rw [hnext]
      exact Nat.lt_succ_of_lt hlt
  | logout t2 =>
    exact ⟨lookup_filter_none st.sessions t _ hlook, hlt⟩
  | send t2 a f m g =>
    have hinv := send_state_invariant st t2 a f m g
    exact ⟨hinv.1 ▸ hlook, hinv.2 ▸ hlt⟩
  | receive t2 s m =>
    rw [receive_state_id st t2 s m]
    exact ⟨hlook, hlt⟩

theorem reachable_preserves_retired {st st' : WalletManagerState} {t : Nat}
    (hreach : FacadeReachable st st') (h : TokenRetired st t) : TokenRetired st' t := by
  unfold FacadeReachable at hreach
  induction hreach with
  | refl => exact h
  | tail _ hstep ih => exact step_preserves_retired hstep ih

/-! ## Claim theorems -/

/-- C2 (code bug evidence): at chain height 100 with minimumConfirmations
10, a single UNSPENT coin of amount 5 first seen at height 100 — so with
far fewer than 10 confirmations — is still counted in `spendable`, and
`awaitingConfirmation` stays 0: GetWalletSummary never computes
confirmation counts (the source line 67 carries `TODO: Determine
#confirmations`), contradicting the claimed classification. -/
theorem getWalletSummary_counts_unconfirmed_spendable :
    WalletManager.GetWalletSummary ⟨100⟩
      ⟨[⟨"alice", ⟨7, "pw"⟩, [⟨⟨5, EOutputStatus.UNSPENT, false, 100⟩, 0⟩]⟩],
       [(0, ("alice", 7))], 1, 8⟩ 0 10
    = Except.ok ⟨100, 10, 0, 0, 0, 5⟩ := by
  rfl

/-- C3 (code bug evidence): a wallet owning a single coin of amount 7
whose status is SPENT gets a summary in which every one of the four
buckets is 0, while the owned-output set carries amount 7: the output is
counted in no bucket, so the buckets are not exhaustive over all known
outputs. -/
theorem getWalletSummary_omits_spent_output :
    WalletManager.GetWalletSummary ⟨100⟩
      ⟨[⟨"bob", ⟨9, "pw"⟩, [⟨⟨7, EOutputStatus.SPENT, false, 50⟩, 1⟩]⟩],
       [(0, ("bob", 9))], 1, 8⟩ 0 10
      = Except.ok ⟨100, 10, 0, 0, 0, 0⟩ ∧
    coinTotal [⟨⟨7, EOutputStatus.SPENT, false, 50⟩, 1⟩] = 7 := by
  exact ⟨rfl, rfl⟩

/-- C4: decrypting the encryption of a seed with the same passphrase
returns exactly the seed, and decrypting with any wrong passphrase fails
with AuthenticationError and never returns a seed. -/
theorem seed_encrypt_decrypt_roundtrip (seed : Nat) (pass other : String) :
    SeedEncrypter.DecryptWalletSeed (SeedEncrypter.EncryptWalletSeed seed pass) pass
      = Except.ok seed ∧
    (other ≠ pass →
      SeedEncrypter.DecryptWalletSeed (SeedEncrypter.EncryptWalletSeed seed pass) other
        = Except.error WalletError.AuthenticationError) := by
  constructor
  · simp [SeedEncrypter.EncryptWalletSeed, SeedEncrypter.DecryptWalletSeed]
  · intro h
    have hne : ¬ (SeedEncrypter.EncryptWalletSeed seed pass).sealedKey = other :=
      fun hh => h (hh.symm)
    simp [SeedEncrypter.EncryptWalletSeed, SeedEncrypter.DecryptWalletSeed] at hne ⊢
    exact fun hh => absurd hh hne

theorem seed_encrypt_decrypt_roundtrip_witness :
    ("b" ≠ "a") ∧
    SeedEncrypter.DecryptWalletSeed (SeedEncrypter.EncryptWalletSeed 42 "a") "a"
      = Except.ok 42 ∧
    SeedEncrypter.DecryptWalletSeed (SeedEncrypter.EncryptWalletSeed 42 "a") "b"
      = Except.error WalletError.AuthenticationError :=
  ⟨by decide, (seed_encrypt_decrypt_roundtrip 42 "a" "b").1,
   (seed_encrypt_decrypt_roundtrip 42 "a" "b").2 (by decide)⟩

/-- C9: for every node, state, token and minimumConfirmations, a summary
returned by GetWalletSummary always has awaitingConfirmation = 0 and
immature = 0, its height field is the node's chain height and its
confirmation field is the minimumConfirmations argument; and the coin
loop gives coins whose status is neither UNSPENT nor LOCKED no
contribution to any bucket. -/
theorem getWalletSummary_shape (node : INodeClient) (st : WalletManagerState)
    (token minConf : Nat) :
    (∀ s, WalletManager.GetWalletSummary node st token minConf = Except.ok s →
       s.awaitingConfirmation = 0 ∧ s.immature = 0 ∧
       s.lastConfirmedHeight = node.chainHeight ∧
       s.minimumConfirmations = minConf) ∧
    (∀ coins, summarizeCoins coins =
       summarizeCoins (coins.filter (fun c =>
         c.outputData.status == EOutputStatus.UNSPENT ||
         c.outputData.status == EOutputStatus.LOCKED))) := by
  constructor
  · intro s hok
    unfold WalletManager.GetWalletSummary at hok
    cases hw : SessionManager.GetWallet st token with
    | error e => rw [hw] at hok; exact absurd hok (by simp)
    | ok wallet =>
      rw [hw] at hok
      cases hs : SessionManager.GetSeed st token with
      | error e => rw [hs] at hok; exact absurd hok (by simp)
      | ok seed =>
        rw [hs] at hok
        simp only [Except.ok.injEq] at hok
        have hfirst := summarize_foldl_keeps_first_two
          (Wallet.GetAllAvailableCoins wallet seed) (0, 0, 0, 0)
        refine ⟨?_, ?_, ?_, ?_⟩
        · rw [← hok]
          exact hfirst.1
        · rw [← hok]
          exact hfirst.2
        · rw [← hok]
        · rw [← hok]
  · intro coins
    exact summarize_foldl_filter coins (0, 0, 0, 0)

theorem getWalletSummary_shape_witness :
    WalletManager.GetWalletSummary ⟨77⟩
      ⟨[⟨"carol", ⟨3, "pw"⟩, [⟨⟨4, EOutputStatus.LOCKED, false, 60⟩, 0⟩]⟩],
       [(0, ("carol", 3))], 1, 8⟩ 0 6
      = Except.ok ⟨77, 6, 0, 0, 4, 0⟩ ∧
    (⟨77, 6, 0, 0, 4, 0⟩ : WalletSummary).awaitingConfirmation = 0 ∧
    (⟨77, 6, 0, 0, 4, 0⟩ : WalletSummary).immature = 0 ∧
    (⟨77, 6, 0, 0, 4, 0⟩ : WalletSummary).lastConfirmedHeight
      = (⟨77⟩ : INodeClient).chainHeight ∧
    (⟨77, 6, 0, 0, 4, 0⟩ : WalletSummary).minimumConfirmations = 6 :=
  ⟨rfl,
   (getWalletSummary_shape ⟨77⟩
      ⟨[⟨"carol", ⟨3, "pw"⟩, [⟨⟨4, EOutputStatus.LOCKED, false, 60⟩, 0⟩]⟩],
       [(0, ("carol", 3))], 1, 8⟩ 0 6).1 ⟨77, 6, 0, 0, 4, 0⟩ rfl⟩

/-- C5: after Logout(token) on an issued token, in every state reachable
by any further sequence of facade operations, GetSeed and GetWallet on
that token fail with InvalidSessionError, and hence every facade
operation taking that token (GetWalletSummary, Send, Receive, Finalize)
fails with InvalidSessionError without touching the state: the token is
never usable again. -/
theorem logout_invalidates_token (st st' : WalletManagerState) (t : Nat)
    (node : INodeClient) (amount feeBase minConf : Nat) (messageOpt : Option String)
    (strategy : ESelectionStrategy) (slate : Slate) (verify : ParticipantData → Bool)
    (hIssued : t < st.nextTokenId)
    (hReach : FacadeReachable (WalletManager.Logout st t) st') :
    SessionManager.GetSeed st' t = Except.error WalletError.InvalidSessionError ∧
    SessionManager.GetWallet st' t = Except.error WalletError.InvalidSessionError ∧
    WalletManager.GetWalletSummary node st' t minConf
      = Except.error WalletError.InvalidSessionError ∧
    WalletManager.Send st' t amount feeBase messageOpt strategy
      = (Except.error WalletError.InvalidSessionError, st') ∧
    WalletManager.Receive st' t slate messageOpt
      = (Except.error WalletError.InvalidSessionError, st') ∧
    WalletManager.Finalize verify st' t slate
      = Except.error WalletError.InvalidSessionError := by
  have h0 : TokenRetired (WalletManager.Logout st t) t :=
    ⟨lookup_filter_bne_self st.sessions t, hIssued⟩
  have h1 := reachable_preserves_retired hReach h0
  exact ⟨getSeed_unbound st' t h1.1, getWallet_unbound st' t h1.1,
         getWalletSummary_unbound node st' t minConf h1.1,
         send_unbound st' t amount feeBase messageOpt strategy h1.1,
         receive_unbound st' t slate messageOpt h1.1,
         finalize_unbound verify st' t slate h1.1⟩

theorem logout_invalidates_token_witness :
    (0 < 1) ∧
    (SessionManager.GetSeed
        (WalletManager.Logout ⟨[⟨"dave", ⟨5, "pw"⟩, []⟩], [(0, ("dave", 5))], 1, 8⟩ 0) 0
      = Except.error WalletError.InvalidSessionError ∧
    SessionManager.GetWallet
        (WalletManager.Logout ⟨[⟨"dave", ⟨5, "pw"⟩, []⟩], [(0, ("dave", 5))], 1, 8⟩ 0) 0
      = Except.error WalletError.InvalidSessionError ∧
    WalletManager.GetWalletSummary ⟨33⟩
        (WalletManager.Logout ⟨[⟨"dave", ⟨5, "pw"⟩, []⟩], [(0, ("dave", 5))], 1, 8⟩ 0) 0 6
      = Except.error WalletError.InvalidSessionError ∧
    WalletManager.Send
        (WalletManager.Logout ⟨[⟨"dave", ⟨5, "pw"⟩, []⟩], [(0, ("dave", 5))], 1, 8⟩ 0)
        0 2 3 none ESelectionStrategy.ALL
      = (Except.error WalletError.InvalidSessionError,
         WalletManager.Logout ⟨[⟨"dave", ⟨5, "pw"⟩, []⟩], [(0, ("dave", 5))], 1, 8⟩ 0) ∧
    WalletManager.Receive
        (WalletManager.Logout ⟨[⟨"dave", ⟨5, "pw"⟩, []⟩], [(0, ("dave", 5))], 1, 8⟩ 0)
        0 ⟨0, ESlatePhase.CREATED, 1, 0, [], [], 0, [], none⟩ none
      = (Except.error WalletError.InvalidSessionError,
         WalletManager.Logout ⟨[⟨"dave", ⟨5, "pw"⟩, []⟩], [(0, ("dave", 5))], 1, 8⟩ 0) ∧
    WalletManager.Finalize (fun _ => true)
        (WalletManager.Logout ⟨[⟨"dave", ⟨5, "pw"⟩, []⟩], [(0, ("dave", 5))], 1, 8⟩ 0)
        0 ⟨0, ESlatePhase.CREATED, 1, 0, [], [], 0, [], none⟩
      = Except.error WalletError.InvalidSessionError) :=
  ⟨by decide,
   logout_invalidates_token ⟨[⟨"dave", ⟨5, "pw"⟩, []⟩], [(0, ("dave", 5))], 1, 8⟩
     (WalletManager.Logout ⟨[⟨"dave", ⟨5, "pw"⟩, []⟩], [(0, ("dave", 5))], 1, 8⟩ 0)
     0 ⟨33⟩ 2 3 6 none ESelectionStrategy.ALL
     ⟨0, ESlatePhase.CREATED, 1, 0, [], [], 0, [], none⟩ (fun _ => true)
     (by decide) Relation.ReflTransGen.refl⟩

/-- C10: every facade operation that takes a session token (GetWalletSummary,
Send, Receive, Finalize) resolves the token via GetSeed/GetWallet before
any other work, so with an unknown or logged-out token each fails with
InvalidSessionError, performs no slate processing and leaves the wallet
state unchanged. -/
theorem token_resolved_before_work (node : INodeClient) (st : WalletManagerState)
    (t minConf amount feeBase : Nat) (messageOpt : Option String)
    (strategy : ESelectionStrategy) (slate : Slate) (verify : ParticipantData → Bool)
    (h : st.sessions.lookup t = none) :
    WalletManager.GetWalletSummary node st t minConf
      = Except.error WalletError.InvalidSessionError ∧
    WalletManager.Send st t amount feeBase messageOpt strategy
      = (Except.error WalletError.InvalidSessionError, st) ∧
    WalletManager.Receive st t slate messageOpt
      = (Except.error WalletError.InvalidSessionError, st) ∧
    WalletManager.Finalize verify st t slate
      = Except.error WalletError.InvalidSessionError :=
  ⟨getWalletSummary_unbound node st t minConf h,
   send_unbound st t amount feeBase messageOpt strategy h,
   receive_unbound st t slate messageOpt h,
   finalize_unbound verify st t slate h⟩

theorem token_resolved_before_work_witness :
    (List.lookup 9 ([] : List (Nat × (String × Nat))) = none) ∧
    (WalletManager.GetWalletSummary ⟨50⟩ ⟨[], [], 0, 0⟩ 9 6
      = Except.error WalletError.InvalidSessionError ∧
    WalletManager.Send ⟨[], [], 0, 0⟩ 9 2 3 none ESelectionStrategy.ALL
      = (Except.error WalletError.InvalidSessionError, ⟨[], [], 0, 0⟩) ∧
    WalletManager.Receive ⟨[], [], 0, 0⟩ 9
        ⟨0, ESlatePhase.CREATED, 1, 0, [], [], 0, [], none⟩ none
      = (Except.error WalletError.InvalidSessionError, ⟨[], [], 0, 0⟩) ∧
    WalletManager.Finalize (fun _ => true) ⟨[], [], 0, 0⟩ 9
        ⟨0, ESlatePhase.CREATED, 1, 0, [], [], 0, [], none⟩
      = Except.error WalletError.InvalidSessionError) :=
  ⟨rfl,
   token_resolved_before_work ⟨50⟩ ⟨[], [], 0, 0⟩ 9 6 2 3 none ESelectionStrategy.ALL
     ⟨0, ESlatePhase.CREATED, 1, 0, [], [], 0, [], none⟩ (fun _ => true) rfl⟩

/-- C1: for a live session, Finalize either returns a transaction in which
the sum of input amounts equals the sum of output amounts plus the fee
(extracted from the commitment balance check), or it fails with
InvalidSlateError; it never returns an unbalanced transaction. -/
theorem finalize_balanced_or_invalid (verify : ParticipantData → Bool)
    (st : WalletManagerState) (token : Nat) (slate : Slate) (seed : Nat)
    (wallet : WalletRecord)
    (hs : SessionManager.GetSeed st token = Except.ok seed)
    (hw : SessionManager.GetWallet st token = Except.ok wallet) :
    (∃ tx, WalletManager.Finalize verify st token slate = Except.ok tx ∧
       commitValueSum tx.inputs = commitValueSum tx.outputs + tx.kernel.fee) ∨
    WalletManager.Finalize verify st token slate
      = Except.error WalletError.InvalidSlateError := by
  unfold WalletManager.Finalize
  rw [hs, hw]
  unfold SlateBuilder.Finalize
  by_cases h1 : slate.slatePhase ≠ ESlatePhase.RECEIVED
  · right
    simp [h1]
  · by_cases h2 : (!slate.participants.all verify) = true
    · right
      simp [h1, h2]
    · by_cases h3 : txBalanced (assembleTransaction slate) = true
      · left
        refine ⟨assembleTransaction slate, ?_, ?_⟩
        · simp [h1, h2, h3]
        · have hb := h3
          unfold txBalanced at hb
          rw [Bool.and_eq_true] at hb
          exact beq_iff_eq.mp hb.1
      · right
        simp [h1, h2, h3]

theorem finalize_balanced_or_invalid_witness :
    (∃ tx, WalletManager.Finalize (fun _ => true)
        ⟨[⟨"erin", ⟨4, "pw"⟩, []⟩], [(0, ("erin", 4))], 1, 8⟩ 0
        ⟨0, ESlatePhase.CREATED, 1, 0, [], [], 0, [], none⟩ = Except.ok tx ∧
       commitValueSum tx.inputs = commitValueSum tx.outputs + tx.kernel.fee) ∨
    WalletManager.Finalize (fun _ => true)
        ⟨[⟨"erin", ⟨4, "pw"⟩, []⟩], [(0, ("erin", 4))], 1, 8⟩ 0
        ⟨0, ESlatePhase.CREATED, 1, 0, [], [], 0, [], none⟩
      = Except.error WalletError.InvalidSlateError :=
  finalize_balanced_or_invalid (fun _ => true)
    ⟨[⟨"erin", ⟨4, "pw"⟩, []⟩], [(0, ("erin", 4))], 1, 8⟩ 0
    ⟨0, ESlatePhase.CREATED, 1, 0, [], [], 0, [], none⟩ 4
    ⟨"erin", ⟨4, "pw"⟩, []⟩ (by rfl) (by rfl)

theorem selectCoins_none_of_no_cover (strategy : ESelectionStrategy)
    (spendable : List WalletCoin) (amount feeBase : Nat)
    (h : ∀ sel ∈ spendable.sublists, coversTarget amount feeBase sel = false) :
    selectCoins strategy spendable amount feeBase = none := by
  cases strategy with
  | ALL =>
    have hall := h spendable (List.mem_sublists.mpr (List.Sublist.refl spendable))
    simp [selectCoins, hall]
  | SMALLEST =>
    have hfilter : spendable.sublists.filter (fun s => coversTarget amount feeBase s)
        = [] :=
      List.filter_eq_nil_iff.mpr (fun a ha => by simp [h a ha])
    simp [selectCoins, hfilter]

/-- C6: for a live session, if no subset of the wallet's spendable
(UNSPENT) coins covers amount plus the fee charged for that selection,
then Send fails with InsufficientFundsError, produces no slate, and the
wallet state is unchanged (in particular no coin becomes LOCKED). -/
theorem send_insufficient_funds (st : WalletManagerState) (token : Nat)
    (amount feeBase : Nat) (messageOpt : Option String)
    (strategy : ESelectionStrategy) (seed : Nat) (wallet : WalletRecord)
    (hs : SessionManager.GetSeed st token = Except.ok seed)
    (hw : SessionManager.GetWallet st token = Except.ok wallet)
    (hno : ∀ sel ∈ (wallet.coins.filter
        (fun c => c.outputData.status == EOutputStatus.UNSPENT)).sublists,
      coversTarget amount feeBase sel = false) :
    WalletManager.Send st token amount feeBase messageOpt strategy
      = (Except.error WalletError.InsufficientFundsError, st) := by
  unfold WalletManager.Send
  rw [hs, hw]
  simp only [SlateBuilder.BuildSendSlate,
    selectCoins_none_of_no_cover strategy _ amount feeBase hno]

theorem send_insufficient_funds_witness :
    (SessionManager.GetSeed
        ⟨[⟨"fred", ⟨6, "pw"⟩, [⟨⟨1, EOutputStatus.UNSPENT, false, 10⟩, 0⟩]⟩],
         [(0, ("fred", 6))], 1, 8⟩ 0 = Except.ok 6) ∧
    (∀ sel ∈ (([⟨⟨1, EOutputStatus.UNSPENT, false, 10⟩, 0⟩] : List WalletCoin).filter
        (fun c => c.outputData.status == EOutputStatus.UNSPENT)).sublists,
      coversTarget 100 1 sel = false) ∧
    WalletManager.Send
        ⟨[⟨"fred", ⟨6, "pw"⟩, [⟨⟨1, EOutputStatus.UNSPENT, false, 10⟩, 0⟩]⟩],
         [(0, ("fred", 6))], 1, 8⟩ 0 100 1 none ESelectionStrategy.SMALLEST
      = (Except.error WalletError.InsufficientFundsError,
         ⟨[⟨"fred", ⟨6, "pw"⟩, [⟨⟨1, EOutputStatus.UNSPENT, false, 10⟩, 0⟩]⟩],
          [(0, ("fred", 6))], 1, 8⟩) :=
  ⟨by rfl, by decide,
   send_insufficient_funds
     ⟨[⟨"fred", ⟨6, "pw"⟩, [⟨⟨1, EOutputStatus.UNSPENT, false, 10⟩, 0⟩]⟩],
      [(0, ("fred", 6))], 1, 8⟩ 0 100 1 none ESelectionStrategy.SMALLEST 6
     ⟨"fred", ⟨6, "pw"⟩, [⟨⟨1, EOutputStatus.UNSPENT, false, 10⟩, 0⟩]⟩
     (by rfl) (by rfl) (by decide)⟩

/-- C7: InitializeNewWallet returns none exactly when the username collides
with an existing wallet record (the storage CreateWallet call reports
failure); otherwise it returns the mnemonic words of the freshly drawn
random seed together with a session token live for that seed. -/
theorem initializeNewWallet_collision_spec (st : WalletManagerState) (u p : String) :
    ((WalletManager.InitializeNewWallet st u p).1 = none ↔
      (st.walletDB.any fun w => w.username == u) = true) ∧
    ((st.walletDB.any fun w => w.username == u) = false →
      (WalletManager.InitializeNewWallet st u p).1
        = some (Mnemonic.CreateMnemonic
                  (RandomNumberGenerator.GenerateRandom32 st.entropy) (some p),
                st.nextTokenId) ∧
      SessionManager.GetSeed (WalletManager.InitializeNewWallet st u p).2 st.nextTokenId
        = Except.ok (RandomNumberGenerator.GenerateRandom32 st.entropy)) := by
  unfold WalletManager.InitializeNewWallet WalletDB.CreateWallet
  by_cases hany : (st.walletDB.any fun w => w.username == u) = true
  · simp [hany]
  · constructor
    · simp [hany]
    · intro _
      constructor
      · simp [hany, SessionManager.Login]
      · simp [hany, SessionManager.Login, SessionManager.GetSeed, List.lookup]

theorem initializeNewWallet_collision_spec_witness :
    ((([] : List WalletRecord).any fun w => w.username == "gina") = false) ∧
    (WalletManager.InitializeNewWallet ⟨[], [], 0, 41⟩ "gina" "pw").1
      = some (Mnemonic.CreateMnemonic 41 (some "pw"), 0) ∧
    SessionManager.GetSeed (WalletManager.InitializeNewWallet ⟨[], [], 0, 41⟩ "gina" "pw").2 0
      = Except.ok 41 :=
  ⟨rfl, (initializeNewWallet_collision_spec ⟨[], [], 0, 41⟩ "gina" "pw").2 rfl⟩

/-- C8: for a live session and a structurally well-formed slate whose phase
is RECEIVED or FINALIZED (i.e. not CREATED), Receive rejects the slate by
returning false — it does not throw, and the state is unchanged. -/
theorem receive_rejects_advanced_slate (st : WalletManagerState) (token : Nat)
    (slate : Slate) (messageOpt : Option String) (seed : Nat) (wallet : WalletRecord)
    (hs : SessionManager.GetSeed st token = Except.ok seed)
    (hw : SessionManager.GetWallet st token = Except.ok wallet)
    (hstruct : slateStructureOk slate = true)
    (hphase : slate.slatePhase = ESlatePhase.RECEIVED ∨
              slate.slatePhase = ESlatePhase.FINALIZED) :
    WalletManager.Receive st token slate messageOpt
      = (Except.ok (false, slate), st) := by
  unfold WalletManager.Receive
  rw [hs, hw]
  unfold SlateBuilder.AddReceiverData
  have hne : slate.slatePhase ≠ ESlatePhase.CREATED := by
    rcases hphase with h | h <;> rw [h] <;> intro hc <;> exact ESlatePhase.noConfusion hc
  simp [hstruct, hne]

theorem receive_rejects_advanced_slate_witness :
    (slateStructureOk ⟨3, ESlatePhase.RECEIVED, 5, 1, [⟨9, 2⟩], [⟨3, 1⟩], 0,
        [⟨1, 1, 1⟩], none⟩ = true) ∧
    WalletManager.Receive
        ⟨[⟨"hank", ⟨2, "pw"⟩, []⟩], [(0, ("hank", 2))], 1, 8⟩ 0
        ⟨3, ESlatePhase.RECEIVED, 5, 1, [⟨9, 2⟩], [⟨3, 1⟩], 0, [⟨1, 1, 1⟩], none⟩ none
      = (Except.ok (false,
          ⟨3, ESlatePhase.RECEIVED, 5, 1, [⟨9, 2⟩], [⟨3, 1⟩], 0, [⟨1, 1, 1⟩], none⟩),
         ⟨[⟨"hank", ⟨2, "pw"⟩, []⟩], [(0, ("hank", 2))], 1, 8⟩) :=
  ⟨by decide,
   receive_rejects_advanced_slate
     ⟨[⟨"hank", ⟨2, "pw"⟩, []⟩], [(0, ("hank", 2))], 1, 8⟩ 0
     ⟨3, ESlatePhase.RECEIVED, 5, 1, [⟨9, 2⟩], [⟨3, 1⟩], 0, [⟨1, 1, 1⟩], none⟩ none 2
     ⟨"hank", ⟨2, "pw"⟩, []⟩ (by rfl) (by rfl) (by decide) (Or.inl rfl)⟩

end MWCWallet
